import Mathlib

/-!
Verification of the tws-redis-bridge event-normalization and aggregation
pipeline, shallowly embedded from the C++ sources.

The embedding covers:
* `TickUpdate`, `TickUpdateType`, `InstrumentState` (src/include/MarketData.h),
  with C++ `double` modelled as `Rat`, `int`/`long` as `Int`;
* `serializeState` (src/include/Serialization.h) as a JSON value built by the
  same sequence of writer calls, rendered to a string;
* the body of `redisWorkerLoop` (src/src/main.cpp, lines 37-104) as a step
  function `redisWorkerStep` on an explicit state map, producing the list of
  publish attempts of that iteration, plus fold variants over event lists;
* a sink layer `redisWorkerRunSink` in which each publish call may throw
  (the try/catch of main.cpp lines 73-81 and 87-99 becomes: a failed call
  delivers nothing and the loop continues);
* the bounded queue used between producer and consumer, modelled from the
  spec because the `moodycamel::ConcurrentQueue` header is a third-party
  dependency not present in the repository.
-/

namespace tws_bridge

/-- Embeds `enum class TickUpdateType` of src/include/MarketData.h. -/
inductive TickUpdateType where
  | BidAsk
  | AllLast
  | Bar
deriving DecidableEq, Repr

/-- Embeds `struct TickUpdate` of src/include/MarketData.h; field defaults
mirror the C++ member initializers.  C++ `double` is modelled as `Rat`. -/
structure TickUpdate where
  tickerId : Int := 0
  type : TickUpdateType := TickUpdateType.BidAsk
  timestamp : Int := 0
  bidPrice : Rat := 0
  askPrice : Rat := 0
  bidSize : Int := 0
  askSize : Int := 0
  lastPrice : Rat := 0
  lastSize : Int := 0
  pastLimit : Bool := false
  open_ : Rat := 0
  high : Rat := 0
  low : Rat := 0
  close : Rat := 0
  volume : Int := 0
  wap : Rat := 0
  barCount : Int := 0
deriving DecidableEq, Repr

/-- Embeds `struct InstrumentState` of src/include/MarketData.h; field
defaults mirror the C++ member initializers, so `{}` is the value that
`std::unordered_map::operator[]` default-constructs. -/
structure InstrumentState where
  symbol : String := ""
  conId : Int := 0
  tickerId : Int := 0
  bidPrice : Rat := 0
  askPrice : Rat := 0
  bidSize : Int := 0
  askSize : Int := 0
  quoteTimestamp : Int := 0
  hasQuote : Bool := false
  lastPrice : Rat := 0
  lastSize : Int := 0
  tradeTimestamp : Int := 0
  hasTrade : Bool := false
  exchange : String := ""
  pastLimit : Bool := false
deriving DecidableEq, Repr

/-- JSON values, the output domain of the RapidJSON `Writer` calls used by
the serializers (only the node kinds those calls produce). -/
inductive Json where
  | str : String → Json
  | int : Int → Json
  | num : Rat → Json
  | bool : Bool → Json
  | obj : List (String × Json) → Json

mutual

/-- Renders a `Json` value to the string the RapidJSON writer emits for the
corresponding call sequence (string escaping is not modelled; the payloads
involved contain no characters needing escapes). -/
def renderJson : Json → String
  | Json.str s => "\"" ++ s ++ "\""
  | Json.int n => toString n
  | Json.num q => toString q
  | Json.bool b => if b then "true" else "false"
  | Json.obj kvs => "\x7b" ++ renderFields kvs ++ "\x7d"

/-- Renders the comma-separated field list of a JSON object. -/
def renderFields : List (String × Json) → String
  | [] => ""
  | [kv] => "\"" ++ kv.1 ++ "\":" ++ renderJson kv.2
  | kv :: rest => "\"" ++ kv.1 ++ "\":" ++ renderJson kv.2 ++ "," ++ renderFields rest

end

/-- Looks up a top-level field of a JSON object. -/
def jsonField (j : Json) (key : String) : Option Json :=
  match j with
  | Json.obj kvs => kvs.lookup key
  | _ => none

/-- Embeds the field structure written by `serializeState`
(src/include/Serialization.h, lines 37-93): the exact key/value sequence of
writer calls, including `timestamp = max(quoteTimestamp, tradeTimestamp)`
from line 53. -/
def stateJson (state : InstrumentState) : Json :=
  Json.obj [
    ("instrument", Json.str state.symbol),
    ("conId", Json.int state.conId),
    ("timestamp", Json.int (max state.quoteTimestamp state.tradeTimestamp)),
    ("price", Json.obj [
      ("bid", Json.num state.bidPrice),
      ("ask", Json.num state.askPrice),
      ("last", Json.num state.lastPrice)]),
    ("size", Json.obj [
      ("bid", Json.int state.bidSize),
      ("ask", Json.int state.askSize),
      ("last", Json.int state.lastSize)]),
    ("timestamps", Json.obj [
      ("quote", Json.int state.quoteTimestamp),
      ("trade", Json.int state.tradeTimestamp)]),
    ("exchange", Json.str state.exchange),
    ("tickAttrib", Json.obj [
      ("pastLimit", Json.bool state.pastLimit)])
  ]

/-- Embeds `serializeState` of src/include/Serialization.h: the JSON string
produced by the writer-call sequence of `stateJson`. -/
def serializeState (state : InstrumentState) : String :=
  renderJson (stateJson state)

/-- Modelled from the spec: `serializeBarData` is called at
src/src/main.cpp line 74 but its definition is not among the repository
sources.  Spec section 4.3 fixes the bar payload: "symbol, OHLC, volume,
weighted-average-price, trade count, bar timestamp — a structurally distinct
payload, never mixed into the tick schema". -/
def serializeBarData (symbol : String) (update : TickUpdate) : String :=
  renderJson (Json.obj [
    ("symbol", Json.str symbol),
    ("open", Json.num update.open_),
    ("high", Json.num update.high),
    ("low", Json.num update.low),
    ("close", Json.num update.close),
    ("volume", Json.int update.volume),
    ("wap", Json.num update.wap),
    ("barCount", Json.int update.barCount),
    ("timestamp", Json.int update.timestamp)
  ])

/-- Publish channels; src/src/main.cpp builds them as
`"TWS:TICKS:" + symbol` (line 89) and `"TWS:BARS:" + symbol` (line 76). -/
inductive Channel where
  | ticks : String → Channel
  | bars : String → Channel
deriving DecidableEq, Repr

/-- The channel string handed to `redis.publish`. -/
def renderChannel : Channel → String
  | Channel.ticks symbol => "TWS:TICKS:" ++ symbol
  | Channel.bars symbol => "TWS:BARS:" ++ symbol

/-- The consumer-side `std::unordered_map<std::string, InstrumentState>`
(src/src/main.cpp line 32), modelled as a partial map: `none` means the key
has no entry. -/
def StateMap : Type := String → Option InstrumentState

/-- The state map at worker start: no entries. -/
def emptyStateMap : StateMap := fun _ => none

/-- Embeds the tickerId → symbol if/else ladder of src/src/main.cpp
lines 40-45 ("temporary hack" per the comment on lines 38-39). -/
def symbolForTickerId (tickerId : Int) : String :=
  if tickerId = 1001 ∨ tickerId = 11001 then "AAPL"
  else if tickerId = 1002 ∨ tickerId = 11002 then "SPY"
  else if tickerId = 1003 ∨ tickerId = 11003 then "TSLA"
  else if tickerId = 2001 then "SPY"
  else if tickerId = 3001 then "SPY"
  else "UNKNOWN"

/-- The tickerIds the ladder of src/src/main.cpp lines 41-45 recognizes. -/
def registeredTickerIds : List Int :=
  [1001, 11001, 1002, 11002, 1003, 11003, 2001, 3001]

/-- Embeds one iteration of the dequeue branch of `redisWorkerLoop`
(src/src/main.cpp lines 38-100): symbol ladder, `stateMap[symbol]`
fetch-or-create with the identity assignments of lines 49-50, the per-kind
merge, and the publish attempts of that iteration (the bar publish of lines
73-81, or the emit-ready tick publish of lines 85-100).  Returns the updated
map and the list of publish attempts. -/
def redisWorkerStep (stateMap : StateMap) (update : TickUpdate) :
    StateMap × List (Channel × String) :=
  let symbol := symbolForTickerId update.tickerId
  let state0 := (stateMap symbol).getD {}
  let state1 := { state0 with symbol := symbol, tickerId := update.tickerId }
  match update.type with
  | TickUpdateType.BidAsk =>
    let state2 := { state1 with
      bidPrice := update.bidPrice, askPrice := update.askPrice,
      bidSize := update.bidSize, askSize := update.askSize,
      quoteTimestamp := update.timestamp, hasQuote := true }
    ((fun s => if s = symbol then some state2 else stateMap s),
     if state2.hasQuote && state2.hasTrade
     then [(Channel.ticks symbol, serializeState state2)] else [])
  | TickUpdateType.AllLast =>
    let state2 := { state1 with
      lastPrice := update.lastPrice, lastSize := update.lastSize,
      tradeTimestamp := update.timestamp, hasTrade := true,
      pastLimit := update.pastLimit }
    ((fun s => if s = symbol then some state2 else stateMap s),
     if state2.hasQuote && state2.hasTrade
     then [(Channel.ticks symbol, serializeState state2)] else [])
  | TickUpdateType.Bar =>
    ((fun s => if s = symbol then some state1 else stateMap s),
     [(Channel.bars symbol, serializeBarData symbol update)])

/-- Runs the worker body over a list of dequeued events, collecting the
state map and the full sequence of publish attempts in order. -/
def redisWorkerTrace : StateMap → List TickUpdate → StateMap × List (Channel × String)
  | stateMap, [] => (stateMap, [])
  | stateMap, update :: rest =>
    let step := redisWorkerStep stateMap update
    let next := redisWorkerTrace step.1 rest
    (next.1, step.2 ++ next.2)

/-- The state map after the worker has processed a list of events. -/
def redisWorkerRun (stateMap : StateMap) (events : List TickUpdate) : StateMap :=
  (redisWorkerTrace stateMap events).1

/-- Observable worker state once the sink is taken into account: the state
map, the number of `publish` calls made so far, and the messages the sink
actually received (in order). -/
structure WorkerIOState where
  map : StateMap
  attempts : Nat
  delivered : List (Channel × String)

/-- Performs the publish attempts of one loop iteration against a sink whose
`fails n` says whether the n-th `publish` call throws.  This embeds the
try/catch of src/src/main.cpp lines 73-81 and 87-99 together with
`RedisPublisher::publish` (src/src/RedisPublisher.cpp lines 38-53, which
rethrows): a throwing call delivers nothing, is caught and logged, and
processing continues. -/
def publishAll (fails : Nat → Bool) : WorkerIOState → List (Channel × String) → WorkerIOState
  | st, [] => st
  | st, p :: rest =>
    publishAll fails
      { st with
        attempts := st.attempts + 1,
        delivered := if fails st.attempts then st.delivered else st.delivered ++ [p] }
      rest

/-- Runs the worker body over a list of dequeued events against a fallible
sink; each iteration updates the state map first (lines 48-64) and then
makes its publish attempts inside try/catch. -/
def redisWorkerRunSink (fails : Nat → Bool) : WorkerIOState → List TickUpdate → WorkerIOState
  | st, [] => st
  | st, update :: rest =>
    let step := redisWorkerStep st.map update
    redisWorkerRunSink fails (publishAll fails { st with map := step.1 } step.2) rest

/-- The sublist of publish attempts that a sink failing exactly on the calls
`fails` marks actually receives, when the first attempt of the list is call
number `k`. -/
def keptFrom (fails : Nat → Bool) : Nat → List (Channel × String) → List (Channel × String)
  | _, [] => []
  | k, p :: rest =>
    if fails k then keptFrom fails (k + 1) rest else p :: keptFrom fails (k + 1) rest

/-- Modelled from the spec: the bounded inter-thread queue.  The code uses
`moodycamel::ConcurrentQueue<TickUpdate> queue(10000)` (src/src/main.cpp
line 131) with `try_enqueue` (src/src/TwsClient.cpp lines 195, 220, 270,
306) and `try_dequeue` (src/src/main.cpp line 37), but the queue header is a
third-party dependency not among the repository sources.  Spec section 4.1:
capacity fixed at construction; `tryEnqueue` never blocks and returns false
at capacity; `tryDequeue` never blocks; FIFO per producer. -/
structure BoundedEventQueue where
  capacity : Nat
  items : List TickUpdate := []

namespace BoundedEventQueue

/-- Modelled from the spec: `tryEnqueue(event) → bool`, false at capacity. -/
def tryEnqueue (q : BoundedEventQueue) (e : TickUpdate) : BoundedEventQueue × Bool :=
  if q.items.length < q.capacity then ({ q with items := q.items ++ [e] }, true)
  else (q, false)

/-- Modelled from the spec: `tryDequeue() → Optional<event>`, never blocks. -/
def tryDequeue (q : BoundedEventQueue) : BoundedEventQueue × Option TickUpdate :=
  match q.items with
  | [] => (q, none)
  | e :: rest => ({ q with items := rest }, some e)

/-- Enqueues a list of events in order, collecting each call's result. -/
def enqueueAll (q : BoundedEventQueue) : List TickUpdate → BoundedEventQueue × List Bool
  | [] => (q, [])
  | e :: rest =>
    let r1 := tryEnqueue q e
    let r2 := enqueueAll r1.1 rest
    (r2.1, r1.2 :: r2.2)

/-- Dequeues up to `n` events, in the order the queue yields them. -/
def dequeueAll : Nat → BoundedEventQueue → List TickUpdate
  | 0, _ => []
  | n + 1, q =>
    match tryDequeue q with
    | (_, none) => []
    | (q1, some e) => e :: dequeueAll n q1

end BoundedEventQueue

/-! ### Helper lemmas about one worker iteration -/

/-- Equation for a Quote (`BidAsk`) iteration: the entry at the routed
symbol becomes the old entry (or the default) with identity fields and the
quote half overwritten, and a tick publish is attempted exactly when the
merged state also has a trade. -/
theorem redisWorkerStep_bidask (m : StateMap) (u : TickUpdate)
    (h : u.type = TickUpdateType.BidAsk) :
    redisWorkerStep m u =
      ((fun s => if s = symbolForTickerId u.tickerId
          then some { (m (symbolForTickerId u.tickerId)).getD {} with
            symbol := symbolForTickerId u.tickerId, tickerId := u.tickerId,
            bidPrice := u.bidPrice, askPrice := u.askPrice,
            bidSize := u.bidSize, askSize := u.askSize,
            quoteTimestamp := u.timestamp, hasQuote := true }
          else m s),
        if ({ (m (symbolForTickerId u.tickerId)).getD {} with
            symbol := symbolForTickerId u.tickerId, tickerId := u.tickerId,
            bidPrice := u.bidPrice, askPrice := u.askPrice,
            bidSize := u.bidSize, askSize := u.askSize,
            quoteTimestamp := u.timestamp, hasQuote := true } : InstrumentState).hasTrade
        then [(Channel.ticks (symbolForTickerId u.tickerId),
               serializeState { (m (symbolForTickerId u.tickerId)).getD {} with
                 symbol := symbolForTickerId u.tickerId, tickerId := u.tickerId,
                 bidPrice := u.bidPrice, askPrice := u.askPrice,
                 bidSize := u.bidSize, askSize := u.askSize,
                 quoteTimestamp := u.timestamp, hasQuote := true })]
        else []) := by
  obtain ⟨tid, ty, ts, bp, ap, bs, as_, lp, ls, pl, o, hi, lo, cl, vo, wa, bc⟩ := u
  cases h
  rfl

/-- Equation for a Trade (`AllLast`) iteration. -/
theorem redisWorkerStep_alllast (m : StateMap) (u : TickUpdate)
    (h : u.type = TickUpdateType.AllLast) :
    redisWorkerStep m u =
      ((fun s => if s = symbolForTickerId u.tickerId
          then some { (m (symbolForTickerId u.tickerId)).getD {} with
            symbol := symbolForTickerId u.tickerId, tickerId := u.tickerId,
            lastPrice := u.lastPrice, lastSize := u.lastSize,
            tradeTimestamp := u.timestamp, hasTrade := true,
            pastLimit := u.pastLimit }
          else m s),
        if ({ (m (symbolForTickerId u.tickerId)).getD {} with
            symbol := symbolForTickerId u.tickerId, tickerId := u.tickerId,
            lastPrice := u.lastPrice, lastSize := u.lastSize,
            tradeTimestamp := u.timestamp, hasTrade := true,
            pastLimit := u.pastLimit } : InstrumentState).hasQuote
        then [(Channel.ticks (symbolForTickerId u.tickerId),
               serializeState { (m (symbolForTickerId u.tickerId)).getD {} with
                 symbol := symbolForTickerId u.tickerId, tickerId := u.tickerId,
                 lastPrice := u.lastPrice, lastSize := u.lastSize,
                 tradeTimestamp := u.timestamp, hasTrade := true,
                 pastLimit := u.pastLimit })]
        else []) := by
  obtain ⟨tid, ty, ts, bp, ap, bs, as_, lp, ls, pl, o, hi, lo, cl, vo, wa, bc⟩ := u
  cases h
  simp only [redisWorkerStep, Bool.and_true]

/-- Equation for a Bar iteration: the entry at the routed symbol gets only
its identity fields assigned (lines 48-50 run before the type dispatch),
and the single publish attempt is the bar payload on the bar channel. -/
theorem redisWorkerStep_bar (m : StateMap) (u : TickUpdate)
    (h : u.type = TickUpdateType.Bar) :
    redisWorkerStep m u =
      ((fun s => if s = symbolForTickerId u.tickerId
          then some { (m (symbolForTickerId u.tickerId)).getD {} with
            symbol := symbolForTickerId u.tickerId, tickerId := u.tickerId }
          else m s),
        [(Channel.bars (symbolForTickerId u.tickerId),
          serializeBarData (symbolForTickerId u.tickerId) u)]) := by
  obtain ⟨tid, ty, ts, bp, ap, bs, as_, lp, ls, pl, o, hi, lo, cl, vo, wa, bc⟩ := u
  cases h
  rfl

/-- A worker iteration leaves every entry other than the routed symbol's
untouched. -/
theorem redisWorkerStep_apply_ne (m : StateMap) (u : TickUpdate) (s : String)
    (hs : s ≠ symbolForTickerId u.tickerId) :
    (redisWorkerStep m u).1 s = m s := by
  cases h : u.type
  · rw [redisWorkerStep_bidask m u h]
    simp [hs]
  · rw [redisWorkerStep_alllast m u h]
    simp [hs]
  · rw [redisWorkerStep_bar m u h]
    simp [hs]

/-- Every publish attempt of one iteration is on a channel of the routed
symbol. -/
theorem redisWorkerStep_publish_channel (m : StateMap) (u : TickUpdate)
    (p : Channel × String) (hp : p ∈ (redisWorkerStep m u).2) :
    p.1 = Channel.ticks (symbolForTickerId u.tickerId) ∨
    p.1 = Channel.bars (symbolForTickerId u.tickerId) := by
  obtain ⟨tid, ty, ts, bp, ap, bs, as_, lp, ls, pl, o, hi, lo, cl, vo, wa, bc⟩ := u
  cases ty
  · simp only [redisWorkerStep] at hp
    split at hp
    · simp only [List.mem_singleton] at hp
      subst hp
      exact Or.inl rfl
    · simp at hp
  · simp only [redisWorkerStep] at hp
    split at hp
    · simp only [List.mem_singleton] at hp
      subst hp
      exact Or.inl rfl
    · simp at hp
  · simp only [redisWorkerStep, List.mem_singleton] at hp
    subst hp
    exact Or.inr rfl

/-! ### Run-level lemmas -/

/-- Unfolding: running the worker on `u :: rest` first applies one step. -/
theorem redisWorkerRun_cons (m : StateMap) (u : TickUpdate) (rest : List TickUpdate) :
    redisWorkerRun m (u :: rest) = redisWorkerRun (redisWorkerStep m u).1 rest := rfl

/-- One iteration never unsets `hasQuote` and never drops the entry. -/
theorem redisWorkerStep_hasQuote_mono (m : StateMap) (u : TickUpdate) (s : String)
    (st : InstrumentState) (h : m s = some st) (hq : st.hasQuote = true) :
    Option.map InstrumentState.hasQuote ((redisWorkerStep m u).1 s) = some true := by
  by_cases hs : s = symbolForTickerId u.tickerId
  · subst hs
    cases hty : u.type
    · rw [redisWorkerStep_bidask m u hty]
      simp
    · rw [redisWorkerStep_alllast m u hty]
      simp [h, hq]
    · rw [redisWorkerStep_bar m u hty]
      simp [h, hq]
  · rw [redisWorkerStep_apply_ne m u s hs, h]
    simp [hq]

/-- One iteration never unsets `hasTrade` and never drops the entry. -/
theorem redisWorkerStep_hasTrade_mono (m : StateMap) (u : TickUpdate) (s : String)
    (st : InstrumentState) (h : m s = some st) (ht : st.hasTrade = true) :
    Option.map InstrumentState.hasTrade ((redisWorkerStep m u).1 s) = some true := by
  by_cases hs : s = symbolForTickerId u.tickerId
  · subst hs
    cases hty : u.type
    · rw [redisWorkerStep_bidask m u hty]
      simp [h, ht]
    · rw [redisWorkerStep_alllast m u hty]
      simp
    · rw [redisWorkerStep_bar m u hty]
      simp [h, ht]
  · rw [redisWorkerStep_apply_ne m u s hs, h]
    simp [ht]

/-- Every entry of the map has `conId = 0` (the consumer loop never assigns
`conId`, whose C++ initializer is 0). -/
def ConIdZero (m : StateMap) : Prop :=
  ∀ (s : String) (st : InstrumentState), m s = some st → st.conId = 0

/-- One iteration preserves `ConIdZero`: no branch of the loop body writes
`conId`. -/
theorem redisWorkerStep_conIdZero (m : StateMap) (u : TickUpdate) (hm : ConIdZero m) :
    ConIdZero (redisWorkerStep m u).1 := by
  intro s st h
  have hold : ((m (symbolForTickerId u.tickerId)).getD {}).conId = 0 := by
    cases h2 : m (symbolForTickerId u.tickerId) with
    | none => simp
    | some st0 => simpa using hm _ st0 h2
  by_cases hs : s = symbolForTickerId u.tickerId
  · subst hs
    cases hty : u.type
    · rw [redisWorkerStep_bidask m u hty] at h
      simp only [eq_self_iff_true, if_true, Option.some.injEq] at h
      rw [← h]
      exact hold
    · rw [redisWorkerStep_alllast m u hty] at h
      simp only [eq_self_iff_true, if_true, Option.some.injEq] at h
      rw [← h]
      exact hold
    · rw [redisWorkerStep_bar m u hty] at h
      simp only [eq_self_iff_true, if_true, Option.some.injEq] at h
      rw [← h]
      exact hold
  · rw [redisWorkerStep_apply_ne m u s hs] at h
    exact hm s st h

/-- Under `ConIdZero`, every tick-channel publish attempt of one iteration
serializes a state whose `conId` is 0. -/
theorem redisWorkerStep_ticks_conIdZero (m : StateMap) (u : TickUpdate)
    (hm : ConIdZero m) (ch : Channel) (pl : String) (s : String)
    (hp : (ch, pl) ∈ (redisWorkerStep m u).2) (hch : ch = Channel.ticks s) :
    ∃ st : InstrumentState, st.conId = 0 ∧ pl = serializeState st := by
  have hold : ((m (symbolForTickerId u.tickerId)).getD {}).conId = 0 := by
    cases h2 : m (symbolForTickerId u.tickerId) with
    | none => simp
    | some st0 => simpa using hm _ st0 h2
  cases hty : u.type
  · rw [redisWorkerStep_bidask m u hty] at hp
    split at hp
    · simp only [List.mem_singleton, Prod.mk.injEq] at hp
      refine ⟨_, ?_, hp.2⟩
      exact hold
    · simp at hp
  · rw [redisWorkerStep_alllast m u hty] at hp
    split at hp
    · simp only [List.mem_singleton, Prod.mk.injEq] at hp
      refine ⟨_, ?_, hp.2⟩
      exact hold
    · simp at hp
  · rw [redisWorkerStep_bar m u hty] at hp
    simp only [List.mem_singleton, Prod.mk.injEq] at hp
    rw [hch] at hp
    exact absurd hp.1 (by simp)

/-- Under `ConIdZero`, every tick-channel publish of a whole run serializes
a state whose `conId` is 0. -/
theorem redisWorkerTrace_ticks_conIdZero :
    ∀ (events : List TickUpdate) (m : StateMap), ConIdZero m →
      ∀ (ch : Channel) (pl : String) (s : String),
        (ch, pl) ∈ (redisWorkerTrace m events).2 → ch = Channel.ticks s →
        ∃ st : InstrumentState, st.conId = 0 ∧ pl = serializeState st := by
  intro events
  induction events with
  | nil =>
    intro m _ ch pl s hp
    simp [redisWorkerTrace] at hp
  | cons u rest ih =>
    intro m hm ch pl s hp hch
    simp only [redisWorkerTrace, List.mem_append] at hp
    rcases hp with hp | hp
    · exact redisWorkerStep_ticks_conIdZero m u hm ch pl s hp hch
    · exact ih (redisWorkerStep m u).1 (redisWorkerStep_conIdZero m u hm) ch pl s hp hch

/-! ### Claims -/

/-- C1: the claim says an event whose tickerId has no routing entry is
reported as a routing error and discarded, with no `InstrumentState`
created.  Evaluating the worker body at a Quote with the unregistered
tickerId 9999 shows the code instead routes it to the symbol "UNKNOWN",
creates a state entry there (none existed before) and merges the quote into
it. -/
theorem claim_C1_routing_miss_eval :
    emptyStateMap "UNKNOWN" = none ∧
    (redisWorkerStep emptyStateMap
        { tickerId := 9999, type := TickUpdateType.BidAsk, timestamp := 5,
          bidPrice := 101, askPrice := 102, bidSize := 3, askSize := 4 }).1 "UNKNOWN" =
      some { symbol := "UNKNOWN", tickerId := 9999, bidPrice := 101, askPrice := 102,
             bidSize := 3, askSize := 4, quoteTimestamp := 5, hasQuote := true } :=
  ⟨rfl, rfl⟩

/-- C2 counterexample: the claim says processing a Bar event creates or
modifies no `InstrumentState` entry for the event's symbol.  Evaluating the
worker body at a Bar with tickerId 2001 (symbol "SPY") on the empty map
shows an entry for "SPY" is created, with its identity fields assigned
(lines 48-50 of src/src/main.cpp run before the type dispatch). -/
theorem claim_C2_counterexample :
    emptyStateMap "SPY" = none ∧
    (redisWorkerStep emptyStateMap
        { tickerId := 2001, type := TickUpdateType.Bar, timestamp := 7,
          open_ := 1, high := 2, low := 3, close := 4, volume := 5, wap := 6,
          barCount := 8 }).1 "SPY" =
      some { symbol := "SPY", tickerId := 2001 } :=
  ⟨rfl, rfl⟩

/-- C2 (amended): processing a Bar event fetches-or-creates the entry for
the routed symbol and assigns only its identity fields (symbol, tickerId),
leaving both the quote and the trade half and their flags untouched; every
other entry is untouched; the iteration's only publish attempt is the bar
payload on the bar channel (so no tick publish is triggered); and the bar
payload is built from the bar fields alone, never merged with quote/trade
fields. -/
theorem claim_C2_bar_isolation :
    ∀ (m : StateMap) (u : TickUpdate), u.type = TickUpdateType.Bar →
      ((redisWorkerStep m u).1 (symbolForTickerId u.tickerId) =
        some { (m (symbolForTickerId u.tickerId)).getD {} with
               symbol := symbolForTickerId u.tickerId, tickerId := u.tickerId }) ∧
      (∀ s, s ≠ symbolForTickerId u.tickerId → (redisWorkerStep m u).1 s = m s) ∧
      (redisWorkerStep m u).2 =
        [(Channel.bars (symbolForTickerId u.tickerId),
          serializeBarData (symbolForTickerId u.tickerId) u)] ∧
      (∀ u' : TickUpdate,
        u'.timestamp = u.timestamp → u'.open_ = u.open_ → u'.high = u.high →
        u'.low = u.low → u'.close = u.close → u'.volume = u.volume →
        u'.wap = u.wap → u'.barCount = u.barCount →
        serializeBarData (symbolForTickerId u.tickerId) u' =
          serializeBarData (symbolForTickerId u.tickerId) u) := by
  intro m u h
  rw [redisWorkerStep_bar m u h]
  refine ⟨by simp, fun s hs => by simp [hs], rfl, ?_⟩
  intro u' h1 h2 h3 h4 h5 h6 h7 h8
  simp [serializeBarData, h1, h2, h3, h4, h5, h6, h7, h8]

/-- Witness for C2 (amended) at a concrete Bar event. -/
theorem claim_C2_bar_isolation_witness :
    ((redisWorkerStep emptyStateMap
        { tickerId := 3001, type := TickUpdateType.Bar, timestamp := 9,
          open_ := 1, high := 2, low := 3, close := 4, volume := 5, wap := 6,
          barCount := 8 }).1 "SPY" = some { symbol := "SPY", tickerId := 3001 }) ∧
    (redisWorkerStep emptyStateMap
        { tickerId := 3001, type := TickUpdateType.Bar, timestamp := 9,
          open_ := 1, high := 2, low := 3, close := 4, volume := 5, wap := 6,
          barCount := 8 }).2 =
      [(Channel.bars "SPY",
        serializeBarData "SPY"
          { tickerId := 3001, type := TickUpdateType.Bar, timestamp := 9,
            open_ := 1, high := 2, low := 3, close := 4, volume := 5, wap := 6,
            barCount := 8 })] := by
  have h := claim_C2_bar_isolation emptyStateMap
    { tickerId := 3001, type := TickUpdateType.Bar, timestamp := 9,
      open_ := 1, high := 2, low := 3, close := 4, volume := 5, wap := 6,
      barCount := 8 } rfl
  exact ⟨h.1, h.2.2.1⟩

/-- C4: serialization is deterministic (equal states give identical payload
strings), and the top-level `timestamp` field of the payload is
`max(quoteTimestamp, tradeTimestamp)`. -/
theorem claim_C4_serialize_deterministic_timestamp_max :
    (∀ s t : InstrumentState, s = t → serializeState s = serializeState t) ∧
    (∀ s : InstrumentState,
      jsonField (stateJson s) "timestamp" =
        some (Json.int (max s.quoteTimestamp s.tradeTimestamp))) :=
  ⟨fun _ _ h => congrArg serializeState h, fun _ => rfl⟩

/-- Witness for C4 at a concrete state (quote ts 1000, trade ts 1500). -/
theorem claim_C4_witness :
    serializeState { symbol := "AAPL", quoteTimestamp := 1000, tradeTimestamp := 1500 } =
      serializeState { symbol := "AAPL", quoteTimestamp := 1000, tradeTimestamp := 1500 } ∧
    jsonField (stateJson { symbol := "AAPL", quoteTimestamp := 1000, tradeTimestamp := 1500 })
        "timestamp" = some (Json.int 1500) := by
  constructor
  · exact claim_C4_serialize_deterministic_timestamp_max.1 _ _ rfl
  · have h := claim_C4_serialize_deterministic_timestamp_max.2
      { symbol := "AAPL", quoteTimestamp := 1000, tradeTimestamp := 1500 }
    have hm : max (1000 : Int) 1500 = 1500 := by decide
    simpa [hm] using h

/-- C6 counterexample: the claim says a Quote event overwrites only the
quote half (bidPrice, askPrice, bidSize, askSize, quoteTimestamp, hasQuote).
With an existing "AAPL" entry holding tickerId 1001, a Quote arriving under
tickerId 11001 also overwrites `tickerId`, a field outside the quote half
(lines 49-50 of src/src/main.cpp run on every event). -/
theorem claim_C6_counterexample :
    (redisWorkerStep
        (fun s => if s = "AAPL"
          then some { symbol := "AAPL", tickerId := 1001, hasQuote := true,
                      quoteTimestamp := 10 }
          else none)
        { tickerId := 11001, type := TickUpdateType.BidAsk, timestamp := 20,
          bidPrice := 5, askPrice := 6, bidSize := 1, askSize := 2 }).1 "AAPL" =
      some { symbol := "AAPL", tickerId := 11001, bidPrice := 5, askPrice := 6,
             bidSize := 1, askSize := 2, quoteTimestamp := 20, hasQuote := true } ∧
    (11001 : Int) ≠ 1001 :=
  ⟨rfl, by decide⟩

/-- C6 (amended): a Quote event overwrites the quote half
(bidPrice, askPrice, bidSize, askSize, quoteTimestamp, hasQuote) and the
identity fields (symbol, tickerId) of the routed entry, leaving the trade
half (lastPrice, lastSize, pastLimit, tradeTimestamp, hasTrade), conId and
exchange unchanged, and every other entry untouched; symmetrically a Trade
event overwrites the trade half (lastPrice, lastSize, pastLimit,
tradeTimestamp, hasTrade) and the identity fields, leaving the quote half,
conId and exchange unchanged. -/
theorem claim_C6_half_frame :
    ∀ (m : StateMap) (u : TickUpdate),
      (u.type = TickUpdateType.BidAsk →
        (redisWorkerStep m u).1 (symbolForTickerId u.tickerId) =
          some { (m (symbolForTickerId u.tickerId)).getD {} with
            symbol := symbolForTickerId u.tickerId, tickerId := u.tickerId,
            bidPrice := u.bidPrice, askPrice := u.askPrice,
            bidSize := u.bidSize, askSize := u.askSize,
            quoteTimestamp := u.timestamp, hasQuote := true } ∧
        (∀ s, s ≠ symbolForTickerId u.tickerId → (redisWorkerStep m u).1 s = m s)) ∧
      (u.type = TickUpdateType.AllLast →
        (redisWorkerStep m u).1 (symbolForTickerId u.tickerId) =
          some { (m (symbolForTickerId u.tickerId)).getD {} with
            symbol := symbolForTickerId u.tickerId, tickerId := u.tickerId,
            lastPrice := u.lastPrice, lastSize := u.lastSize,
            tradeTimestamp := u.timestamp, hasTrade := true,
            pastLimit := u.pastLimit } ∧
        (∀ s, s ≠ symbolForTickerId u.tickerId → (redisWorkerStep m u).1 s = m s)) := by
  intro m u
  constructor
  · intro h
    rw [redisWorkerStep_bidask m u h]
    exact ⟨by simp, fun s hs => by simp [hs]⟩
  · intro h
    rw [redisWorkerStep_alllast m u h]
    exact ⟨by simp, fun s hs => by simp [hs]⟩

/-- While there is room for the whole batch, every `tryEnqueue` succeeds
and the items are appended in order. -/
theorem BoundedEventQueue.enqueueAll_ok :
    ∀ (es : List TickUpdate) (q : BoundedEventQueue),
      q.items.length + es.length ≤ q.capacity →
      BoundedEventQueue.enqueueAll q es =
        ({ q with items := q.items ++ es }, List.replicate es.length true) := by
  intro es
  induction es with
  | nil =>
    intro q _
    simp [BoundedEventQueue.enqueueAll]
  | cons e rest ih =>
    intro q hle
    have hlt : q.items.length < q.capacity := by
      simp only [List.length_cons] at hle
      omega
    have h1 : BoundedEventQueue.tryEnqueue q e =
        ({ q with items := q.items ++ [e] }, true) := by
      simp [BoundedEventQueue.tryEnqueue, hlt]
    have h2 := ih { q with items := q.items ++ [e] }
      (by simp at hle ⊢; omega)
    simp only [BoundedEventQueue.enqueueAll, h1, h2, List.length_cons,
      List.replicate_succ, List.append_assoc, List.singleton_append]

/-- Enqueueing a concatenation enqueues the first batch, then the second on
the resulting queue, concatenating the result lists. -/
theorem BoundedEventQueue.enqueueAll_append :
    ∀ (a b : List TickUpdate) (q : BoundedEventQueue),
      BoundedEventQueue.enqueueAll q (a ++ b) =
        ((BoundedEventQueue.enqueueAll (BoundedEventQueue.enqueueAll q a).1 b).1,
         (BoundedEventQueue.enqueueAll q a).2 ++
           (BoundedEventQueue.enqueueAll (BoundedEventQueue.enqueueAll q a).1 b).2) := by
  intro a
  induction a with
  | nil =>
    intro b q
    simp [BoundedEventQueue.enqueueAll]
  | cons e rest ih =>
    intro b q
    simp only [List.cons_append, BoundedEventQueue.enqueueAll]
    rw [show (rest.append b) = rest ++ b from rfl, ih]

/-- At capacity, `tryEnqueue` returns false and leaves the queue unchanged. -/
theorem BoundedEventQueue.tryEnqueue_full (q : BoundedEventQueue) (e : TickUpdate)
    (h : q.items.length = q.capacity) :
    BoundedEventQueue.tryEnqueue q e = (q, false) := by
  simp [BoundedEventQueue.tryEnqueue, h]

/-- Dequeueing as many times as there are items yields them in order. -/
theorem BoundedEventQueue.dequeueAll_items :
    ∀ (l : List TickUpdate) (c : Nat),
      BoundedEventQueue.dequeueAll l.length { capacity := c, items := l } = l := by
  intro l
  induction l with
  | nil => intro c; rfl
  | cons e rest ih =>
    intro c
    simp only [List.length_cons, BoundedEventQueue.dequeueAll,
      BoundedEventQueue.tryDequeue]
    exact congrArg (e :: ·) (ih c)

/-- C7: enqueueing 10,001 events into a fresh queue of capacity 10,000 with
no consumer draining makes the first 10,000 `tryEnqueue` calls succeed and
the 10,001st return false, and the first 10,000 events remain dequeuable in
their enqueue order. -/
theorem claim_C7_queue_capacity :
    ∀ (events : List TickUpdate), events.length = 10001 →
      (BoundedEventQueue.enqueueAll { capacity := 10000, items := [] } events).2 =
        List.replicate 10000 true ++ [false] ∧
      (BoundedEventQueue.enqueueAll { capacity := 10000, items := [] } events).1.items =
        events.take 10000 ∧
      BoundedEventQueue.dequeueAll 10000
        (BoundedEventQueue.enqueueAll { capacity := 10000, items := [] } events).1 =
        events.take 10000 := by
  intro events h
  have ht : (events.take 10000).length = 10000 := by
    rw [List.length_take, h]
    omega
  have hd : (events.drop 10000).length = 1 := by
    rw [List.length_drop, h]
  obtain ⟨x, hx⟩ := List.length_eq_one.mp hd
  have hsplit : events = events.take 10000 ++ [x] := by
    rw [← hx, List.take_append_drop]
  have hq1 : BoundedEventQueue.enqueueAll { capacity := 10000, items := [] }
      (events.take 10000) =
      ({ capacity := 10000, items := events.take 10000 }, List.replicate 10000 true) := by
    have := BoundedEventQueue.enqueueAll_ok (events.take 10000)
      { capacity := 10000, items := [] } (by simp only [List.length_nil, ht]; omega)
    rw [this, ht, List.nil_append]
  have hq2 : BoundedEventQueue.enqueueAll
      { capacity := 10000, items := events.take 10000 } [x] =
      ({ capacity := 10000, items := events.take 10000 }, [false]) := by
    simp only [BoundedEventQueue.enqueueAll]
    rw [BoundedEventQueue.tryEnqueue_full _ x ht]
  have hall : BoundedEventQueue.enqueueAll { capacity := 10000, items := [] } events =
      ({ capacity := 10000, items := events.take 10000 },
       List.replicate 10000 true ++ [false]) := by
    conv_lhs => rw [hsplit]
    rw [BoundedEventQueue.enqueueAll_append, hq1]
    simp only at hq2 ⊢
    rw [hq2]
  refine ⟨by rw [hall], by rw [hall], ?_⟩
  rw [hall]
  have hdq := BoundedEventQueue.dequeueAll_items (events.take 10000) 10000
  rw [ht] at hdq
  exact hdq

/-- Witness for C7: 10,001 default events satisfy the length hypothesis. -/
theorem claim_C7_witness :
    (List.replicate 10001 ({} : TickUpdate)).length = 10001 ∧
    (BoundedEventQueue.enqueueAll { capacity := 10000, items := [] }
        (List.replicate 10001 ({} : TickUpdate))).2 =
      List.replicate 10000 true ++ [false] := by
  have hl : (List.replicate 10001 ({} : TickUpdate)).length = 10001 := by
    rw [List.length_replicate]
  exact ⟨hl, (claim_C7_queue_capacity (List.replicate 10001 {}) hl).1⟩

/-- Unfolding `publishAll`: it advances the attempt counter by the number
of publish calls and appends exactly the non-failing messages. -/
theorem publishAll_spec (fails : Nat → Bool) :
    ∀ (pubs : List (Channel × String)) (st : WorkerIOState),
      publishAll fails st pubs =
        { map := st.map, attempts := st.attempts + pubs.length,
          delivered := st.delivered ++ keptFrom fails st.attempts pubs } := by
  intro pubs
  induction pubs with
  | nil =>
    intro st
    obtain ⟨ms, ks, ds⟩ := st
    simp only [publishAll, keptFrom, List.length_nil, Nat.add_zero, List.append_nil]
  | cons p rest ih =>
    intro st
    simp only [publishAll, keptFrom, List.length_cons]
    rw [ih]
    have ha : st.attempts + 1 + rest.length = st.attempts + (rest.length + 1) := by
      omega
    by_cases hf : fails st.attempts
    · simp only [hf, eq_self_iff_true, if_true, ha]
    · simp only [hf, Bool.false_eq_true, if_false, ha, List.append_assoc,
        List.singleton_append]

/-- `keptFrom` distributes over concatenation, shifting the call counter. -/
theorem keptFrom_append (fails : Nat → Bool) :
    ∀ (a b : List (Channel × String)) (k : Nat),
      keptFrom fails k (a ++ b) =
        keptFrom fails k a ++ keptFrom fails (k + a.length) b := by
  intro a
  induction a with
  | nil =>
    intro b k
    simp [keptFrom]
  | cons p rest ih =>
    intro b k
    simp only [List.cons_append, keptFrom, List.length_cons]
    rw [show (rest.append b) = rest ++ b from rfl, ih]
    have ha : k + 1 + rest.length = k + (rest.length + 1) := by omega
    by_cases hf : fails k
    · simp only [hf, eq_self_iff_true, if_true, ha]
    · simp only [hf, Bool.false_eq_true, if_false, ha, List.cons_append]

/-- Running against a fallible sink: the state map evolves exactly as in
the failure-free run (failures are caught per publish call), the attempt
counter advances by the number of publish attempts, and the sink receives
exactly the non-failing attempts. -/
theorem redisWorkerRunSink_spec (fails : Nat → Bool) :
    ∀ (events : List TickUpdate) (m : StateMap) (k : Nat)
      (d : List (Channel × String)),
      redisWorkerRunSink fails { map := m, attempts := k, delivered := d } events =
        { map := (redisWorkerTrace m events).1,
          attempts := k + (redisWorkerTrace m events).2.length,
          delivered := d ++ keptFrom fails k (redisWorkerTrace m events).2 } := by
  intro events
  induction events with
  | nil =>
    intro m k d
    simp only [redisWorkerRunSink, redisWorkerTrace, keptFrom, List.length_nil,
      Nat.add_zero, List.append_nil]
  | cons u rest ih =>
    intro m k d
    simp only [redisWorkerRunSink, redisWorkerTrace]
    rw [publishAll_spec]
    simp only
    rw [ih]
    congr 1
    · simp only [List.length_append]
      omega
    · rw [keptFrom_append, List.append_assoc]

/-- C8: publish failures are confined to the failing call.  For every
failure pattern of the sink, the worker processes the whole event list, the
state map ends exactly as in the failure-free run (the catch is around the
publish call only, after the merge), the number of publish attempts is that
of the failure-free trace, and the sink receives exactly the attempts on
which it did not throw.  Concretely, when publish throws on its first call
and succeeds afterwards, the second emission's snapshot still reaches the
sink. -/
theorem claim_C8_sink_failures_tolerated :
    (∀ (fails : Nat → Bool) (events : List TickUpdate),
      redisWorkerRunSink fails
          { map := emptyStateMap, attempts := 0, delivered := [] } events =
        { map := redisWorkerRun emptyStateMap events,
          attempts := (redisWorkerTrace emptyStateMap events).2.length,
          delivered := keptFrom fails 0 (redisWorkerTrace emptyStateMap events).2 }) ∧
    ((redisWorkerRunSink (fun n => n == 0)
        { map := emptyStateMap, attempts := 0, delivered := [] }
        [{ tickerId := 1001, type := TickUpdateType.BidAsk, timestamp := 1000,
           bidPrice := 100, askPrice := 101, bidSize := 10, askSize := 20 },
         { tickerId := 11001, type := TickUpdateType.AllLast, timestamp := 1500,
           lastPrice := 99, lastSize := 5 },
         { tickerId := 1001, type := TickUpdateType.BidAsk, timestamp := 2000,
           bidPrice := 102, askPrice := 103, bidSize := 11, askSize := 21 }]).delivered =
      [(Channel.ticks "AAPL", serializeState
        { symbol := "AAPL", tickerId := 1001, bidPrice := 102, askPrice := 103,
          bidSize := 11, askSize := 21, quoteTimestamp := 2000, hasQuote := true,
          lastPrice := 99, lastSize := 5, tradeTimestamp := 1500,
          hasTrade := true })]) := by
  constructor
  · intro fails events
    have h := redisWorkerRunSink_spec fails events emptyStateMap 0 []
    simpa [redisWorkerRun] using h
  · rfl

/-- If only Quote events can reach symbol `s` and its entry has no trade
yet, one iteration keeps the entry trade-free and makes no tick publish for
`s`. -/
theorem redisWorkerStep_quoteOnly (m : StateMap) (u : TickUpdate) (s : String)
    (hinv : ∀ st, m s = some st → st.hasTrade = false)
    (hty : symbolForTickerId u.tickerId = s → u.type = TickUpdateType.BidAsk) :
    (∀ st, (redisWorkerStep m u).1 s = some st → st.hasTrade = false) ∧
    (∀ pl, (Channel.ticks s, pl) ∉ (redisWorkerStep m u).2) := by
  by_cases hs : symbolForTickerId u.tickerId = s
  · have hb := hty hs
    have hold : ((m s).getD {}).hasTrade = false := by
      cases h2 : m s with
      | none => simp
      | some st0 => simpa using hinv st0 h2
    constructor
    · intro st h
      rw [redisWorkerStep_bidask m u hb, hs] at h
      simp only [eq_self_iff_true, if_true, Option.some.injEq] at h
      rw [← h]
      exact hold
    · intro pl hp
      rw [redisWorkerStep_bidask m u hb, hs] at hp
      rw [if_neg (by simp [hold])] at hp
      simp at hp
  · constructor
    · intro st h
      rw [redisWorkerStep_apply_ne m u s (fun hc => hs hc.symm)] at h
      exact hinv st h
    · intro pl hp
      rcases redisWorkerStep_publish_channel m u (Channel.ticks s, pl) hp with h | h
      · simp only [Channel.ticks.injEq] at h
        exact hs h.symm
      · simp at h

/-- If only Quote events can reach symbol `s`, a whole run starting from a
trade-free entry (or none) never publishes on the tick channel of `s`. -/
theorem redisWorkerTrace_quoteOnly_no_ticks :
    ∀ (events : List TickUpdate) (m : StateMap) (s : String),
      (∀ st, m s = some st → st.hasTrade = false) →
      (∀ u ∈ events, symbolForTickerId u.tickerId = s → u.type = TickUpdateType.BidAsk) →
      ∀ pl, (Channel.ticks s, pl) ∉ (redisWorkerTrace m events).2 := by
  intro events
  induction events with
  | nil =>
    intro m s _ _ pl hp
    simp [redisWorkerTrace] at hp
  | cons u rest ih =>
    intro m s hinv hq pl hp
    simp only [redisWorkerTrace, List.mem_append] at hp
    rcases hp with hp | hp
    · exact (redisWorkerStep_quoteOnly m u s hinv (hq u (by simp))).2 pl hp
    · exact ih (redisWorkerStep m u).1 s
        (redisWorkerStep_quoteOnly m u s hinv (hq u (by simp))).1
        (fun v hv hvs => hq v (by simp [hv]) hvs) pl hp

/-- C3: emit-ready gating.  (1) From process start, a symbol that has only
ever received Quote events never gets a publish on its tick channel.
(2) When a symbol's entry has a quote, an arriving Trade event triggers
exactly one publish attempt, on that symbol's tick channel.  (3) Once the
entry is emit-ready (`hasQuote ∧ hasTrade`), every further Quote or Trade
event for that symbol triggers exactly one publish attempt, on that
symbol's tick channel. -/
theorem claim_C3_emit_ready_gating :
    (∀ (s : String) (events : List TickUpdate),
      (∀ u ∈ events, symbolForTickerId u.tickerId = s → u.type = TickUpdateType.BidAsk) →
      ∀ pl, (Channel.ticks s, pl) ∉ (redisWorkerTrace emptyStateMap events).2) ∧
    (∀ (m : StateMap) (u : TickUpdate) (s : String) (st : InstrumentState),
      symbolForTickerId u.tickerId = s → m s = some st → st.hasQuote = true →
      u.type = TickUpdateType.AllLast →
      (redisWorkerStep m u).2.map Prod.fst = [Channel.ticks s]) ∧
    (∀ (m : StateMap) (u : TickUpdate) (s : String) (st : InstrumentState),
      symbolForTickerId u.tickerId = s → m s = some st →
      st.hasQuote = true → st.hasTrade = true →
      (u.type = TickUpdateType.BidAsk ∨ u.type = TickUpdateType.AllLast) →
      (redisWorkerStep m u).2.map Prod.fst = [Channel.ticks s]) := by
  refine ⟨?_, ?_, ?_⟩
  · intro s events hq pl
    exact redisWorkerTrace_quoteOnly_no_ticks events emptyStateMap s
      (fun st h => nomatch h) hq pl
  · intro m u s st hs hm hq hty
    rw [redisWorkerStep_alllast m u hty, hs]
    simp [hm, hq]
  · intro m u s st hs hm hq ht hty
    rcases hty with hty | hty
    · rw [redisWorkerStep_bidask m u hty, hs]
      simp [hm, ht]
    · rw [redisWorkerStep_alllast m u hty, hs]
      simp [hm, hq]

/-- Witness for C3: a quote-only "AAPL" history yields no tick publish; a
Trade after a quote, and any update on an emit-ready entry, each yield
exactly one tick publish attempt. -/
theorem claim_C3_witness :
    ((Channel.ticks "AAPL", serializeState {}) ∉
      (redisWorkerTrace emptyStateMap
        [{ tickerId := 1001, type := TickUpdateType.BidAsk, timestamp := 20,
           bidPrice := 5, askPrice := 6, bidSize := 1, askSize := 2 }]).2) ∧
    ((redisWorkerStep
        (fun s => if s = "AAPL"
          then some { symbol := "AAPL", tickerId := 1001, hasQuote := true,
                      quoteTimestamp := 10 }
          else none)
        { tickerId := 11001, type := TickUpdateType.AllLast, timestamp := 30,
          lastPrice := 7, lastSize := 2 }).2.map Prod.fst = [Channel.ticks "AAPL"]) ∧
    ((redisWorkerStep
        (fun s => if s = "AAPL"
          then some { symbol := "AAPL", tickerId := 1001, hasQuote := true,
                      quoteTimestamp := 10, hasTrade := true, tradeTimestamp := 15 }
          else none)
        { tickerId := 1001, type := TickUpdateType.BidAsk, timestamp := 40,
          bidPrice := 5, askPrice := 6, bidSize := 1, askSize := 2 }).2.map Prod.fst =
      [Channel.ticks "AAPL"]) := by
  refine ⟨?_, ?_, ?_⟩
  · exact claim_C3_emit_ready_gating.1 "AAPL"
      [{ tickerId := 1001, type := TickUpdateType.BidAsk, timestamp := 20,
         bidPrice := 5, askPrice := 6, bidSize := 1, askSize := 2 }]
      (by intro u hu hs; simp only [List.mem_singleton] at hu; subst hu; rfl)
      (serializeState {})
  · exact claim_C3_emit_ready_gating.2.1
      (fun s => if s = "AAPL"
        then some { symbol := "AAPL", tickerId := 1001, hasQuote := true,
                    quoteTimestamp := 10 }
        else none)
      { tickerId := 11001, type := TickUpdateType.AllLast, timestamp := 30,
        lastPrice := 7, lastSize := 2 }
      "AAPL" { symbol := "AAPL", tickerId := 1001, hasQuote := true,
               quoteTimestamp := 10 }
      rfl rfl rfl rfl
  · exact claim_C3_emit_ready_gating.2.2
      (fun s => if s = "AAPL"
        then some { symbol := "AAPL", tickerId := 1001, hasQuote := true,
                    quoteTimestamp := 10, hasTrade := true, tradeTimestamp := 15 }
        else none)
      { tickerId := 1001, type := TickUpdateType.BidAsk, timestamp := 40,
        bidPrice := 5, askPrice := 6, bidSize := 1, askSize := 2 }
      "AAPL" { symbol := "AAPL", tickerId := 1001, hasQuote := true,
               quoteTimestamp := 10, hasTrade := true, tradeTimestamp := 15 }
      rfl rfl rfl rfl (Or.inl rfl)

/-- C9: every tickerId outside the hardcoded ladder routes to the single
symbol "UNKNOWN"; any Quote or Trade routed there merges into the one
shared "UNKNOWN" entry (leaving all other entries alone); and concretely,
a Quote from unregistered id 4242 followed by a Trade from unregistered id
777 makes that shared entry emit-ready and publishes one snapshot on channel
TWS:TICKS:UNKNOWN mixing the two instruments' fields. -/
theorem claim_C9_unknown_ids_share_state :
    (∀ tid : Int, tid ∉ registeredTickerIds → symbolForTickerId tid = "UNKNOWN") ∧
    (∀ (m : StateMap) (u : TickUpdate),
      symbolForTickerId u.tickerId = "UNKNOWN" → u.type ≠ TickUpdateType.Bar →
      Option.map InstrumentState.symbol ((redisWorkerStep m u).1 "UNKNOWN") =
        some "UNKNOWN" ∧
      (∀ s, s ≠ "UNKNOWN" → (redisWorkerStep m u).1 s = m s)) ∧
    ((redisWorkerTrace emptyStateMap
        [{ tickerId := 4242, type := TickUpdateType.BidAsk, timestamp := 100,
           bidPrice := 11, askPrice := 12, bidSize := 1, askSize := 2 },
         { tickerId := 777, type := TickUpdateType.AllLast, timestamp := 200,
           lastPrice := 13, lastSize := 7, pastLimit := true }]).2 =
      [(Channel.ticks "UNKNOWN", serializeState
        { symbol := "UNKNOWN", tickerId := 777, bidPrice := 11, askPrice := 12,
          bidSize := 1, askSize := 2, quoteTimestamp := 100, hasQuote := true,
          lastPrice := 13, lastSize := 7, tradeTimestamp := 200, hasTrade := true,
          pastLimit := true })] ∧
      renderChannel (Channel.ticks "UNKNOWN") = "TWS:TICKS:UNKNOWN") := by
  refine ⟨?_, ?_, by rfl, by decide⟩
  · intro tid h
    simp only [registeredTickerIds, List.mem_cons, List.not_mem_nil, or_false,
      not_or] at h
    obtain ⟨h1, h2, h3, h4, h5, h6, h7, h8⟩ := h
    simp [symbolForTickerId, h1, h2, h3, h4, h5, h6, h7, h8]
  · intro m u hsym hbar
    cases hty : u.type
    · rw [redisWorkerStep_bidask m u hty, hsym]
      exact ⟨by simp, fun s hs => by simp [hs]⟩
    · rw [redisWorkerStep_alllast m u hty, hsym]
      exact ⟨by simp, fun s hs => by simp [hs]⟩
    · exact absurd hty hbar

/-- Witness for C9: id 4242 is unregistered and routes to "UNKNOWN"; a
Trade from id 777 merges into the shared "UNKNOWN" entry of a map already
holding one. -/
theorem claim_C9_witness :
    symbolForTickerId 4242 = "UNKNOWN" ∧
    Option.map InstrumentState.symbol
      ((redisWorkerStep
        (fun s => if s = "UNKNOWN"
          then some { symbol := "UNKNOWN", tickerId := 4242, hasQuote := true,
                      quoteTimestamp := 100 }
          else none)
        { tickerId := 777, type := TickUpdateType.AllLast, timestamp := 200,
          lastPrice := 13, lastSize := 7, pastLimit := true }).1 "UNKNOWN") =
      some "UNKNOWN" := by
  constructor
  · exact claim_C9_unknown_ids_share_state.1 4242 (by decide)
  · exact (claim_C9_unknown_ids_share_state.2.1
      (fun s => if s = "UNKNOWN"
        then some { symbol := "UNKNOWN", tickerId := 4242, hasQuote := true,
                    quoteTimestamp := 100 }
        else none)
      { tickerId := 777, type := TickUpdateType.AllLast, timestamp := 200,
        lastPrice := 13, lastSize := 7, pastLimit := true }
      rfl (by decide)).1

/-- C10: the consumer loop never assigns `conId`, so every reachable entry
keeps the initialized value 0 (`ConIdZero` is preserved by any run), and
every tick-channel publish of a run from the initial empty map serializes a
state with `conId = 0`, whose payload's top-level `conId` field is the JSON
integer 0. -/
theorem claim_C10_conId_always_zero :
    (∀ (events : List TickUpdate) (m : StateMap), ConIdZero m →
      ConIdZero (redisWorkerRun m events)) ∧
    (∀ (events : List TickUpdate) (ch : Channel) (pl : String) (s : String),
      (ch, pl) ∈ (redisWorkerTrace emptyStateMap events).2 → ch = Channel.ticks s →
      ∃ st : InstrumentState, st.conId = 0 ∧ pl = serializeState st ∧
        jsonField (stateJson st) "conId" = some (Json.int 0)) := by
  constructor
  · intro events
    induction events with
    | nil => intro m hm; exact hm
    | cons u rest ih =>
      intro m hm
      rw [redisWorkerRun_cons]
      exact ih (redisWorkerStep m u).1 (redisWorkerStep_conIdZero m u hm)
  · intro events ch pl s hp hch
    obtain ⟨st, h0, hpl⟩ := redisWorkerTrace_ticks_conIdZero events emptyStateMap
      (fun _ _ h => nomatch h) ch pl s hp hch
    refine ⟨st, h0, hpl, ?_⟩
    have : jsonField (stateJson st) "conId" = some (Json.int st.conId) := rfl
    rw [this, h0]

/-- Witness for C10: after a run over one Quote event from the empty map,
every entry still has `conId = 0`. -/
theorem claim_C10_witness :
    ConIdZero (redisWorkerRun emptyStateMap
      [{ tickerId := 1001, type := TickUpdateType.BidAsk, timestamp := 20,
         bidPrice := 5, askPrice := 6, bidSize := 1, askSize := 2 }]) :=
  claim_C10_conId_always_zero.1
    [{ tickerId := 1001, type := TickUpdateType.BidAsk, timestamp := 20,
       bidPrice := 5, askPrice := 6, bidSize := 1, askSize := 2 }]
    emptyStateMap (fun _ _ h => nomatch h)

/-- C5: `hasQuote` and `hasTrade` are monotone — for every state map, once
an entry's flag is true, after processing any further sequence of events the
entry still exists and the flag is still true (no step ever resets either
flag or drops an entry). -/
theorem claim_C5_flags_monotone :
    ∀ (events : List TickUpdate) (m : StateMap) (s : String) (st : InstrumentState),
      m s = some st →
      (st.hasQuote = true →
        Option.map InstrumentState.hasQuote (redisWorkerRun m events s) = some true) ∧
      (st.hasTrade = true →
        Option.map InstrumentState.hasTrade (redisWorkerRun m events s) = some true) := by
  intro events
  induction events with
  | nil =>
    intro m s st h
    exact ⟨fun hq => by simp [redisWorkerRun, redisWorkerTrace, h, hq],
           fun ht => by simp [redisWorkerRun, redisWorkerTrace, h, ht]⟩
  | cons u rest ih =>
    intro m s st h
    constructor
    · intro hq
      have h1 := redisWorkerStep_hasQuote_mono m u s st h hq
      obtain ⟨st1, hst1, hq1⟩ : ∃ st1, (redisWorkerStep m u).1 s = some st1 ∧
          st1.hasQuote = true := by
        cases h2 : (redisWorkerStep m u).1 s with
        | none => rw [h2] at h1; simp at h1
        | some st1 => rw [h2] at h1; simp at h1; exact ⟨st1, rfl, h1⟩
      rw [redisWorkerRun_cons]
      exact (ih (redisWorkerStep m u).1 s st1 hst1).1 hq1
    · intro ht
      have h1 := redisWorkerStep_hasTrade_mono m u s st h ht
      obtain ⟨st1, hst1, ht1⟩ : ∃ st1, (redisWorkerStep m u).1 s = some st1 ∧
          st1.hasTrade = true := by
        cases h2 : (redisWorkerStep m u).1 s with
        | none => rw [h2] at h1; simp at h1
        | some st1 => rw [h2] at h1; simp at h1; exact ⟨st1, rfl, h1⟩
      rw [redisWorkerRun_cons]
      exact (ih (redisWorkerStep m u).1 s st1 hst1).2 ht1

/-- Witness for C5: an "AAPL" entry with `hasQuote` set keeps it through a
subsequent Trade and Bar event. -/
theorem claim_C5_flags_monotone_witness :
    Option.map InstrumentState.hasQuote
      (redisWorkerRun
        (fun s => if s = "AAPL"
          then some { symbol := "AAPL", tickerId := 1001, hasQuote := true,
                      quoteTimestamp := 10 }
          else none)
        [{ tickerId := 11001, type := TickUpdateType.AllLast, timestamp := 20,
           lastPrice := 5, lastSize := 1 },
         { tickerId := 1001, type := TickUpdateType.Bar, timestamp := 30 }] "AAPL") =
      some true := by
  have h := (claim_C5_flags_monotone
    [{ tickerId := 11001, type := TickUpdateType.AllLast, timestamp := 20,
       lastPrice := 5, lastSize := 1 },
     { tickerId := 1001, type := TickUpdateType.Bar, timestamp := 30 }]
    (fun s => if s = "AAPL"
      then some { symbol := "AAPL", tickerId := 1001, hasQuote := true,
                  quoteTimestamp := 10 }
      else none)
    "AAPL"
    { symbol := "AAPL", tickerId := 1001, hasQuote := true, quoteTimestamp := 10 }
    (by simp)).1 rfl
  exact h

/-- Witness for C6 (amended) at a concrete Quote event: the pre-existing
trade half survives the quote merge. -/
theorem claim_C6_half_frame_witness :
    (redisWorkerStep
        (fun s => if s = "AAPL"
          then some { symbol := "AAPL", tickerId := 1001, lastPrice := 7,
                      lastSize := 3, tradeTimestamp := 15, hasTrade := true,
                      pastLimit := true }
          else none)
        { tickerId := 1001, type := TickUpdateType.BidAsk, timestamp := 20,
          bidPrice := 5, askPrice := 6, bidSize := 1, askSize := 2 }).1 "AAPL" =
      some { symbol := "AAPL", tickerId := 1001, bidPrice := 5, askPrice := 6,
             bidSize := 1, askSize := 2, quoteTimestamp := 20, hasQuote := true,
             lastPrice := 7, lastSize := 3, tradeTimestamp := 15, hasTrade := true,
             pastLimit := true } := by
  have h := (claim_C6_half_frame
    (fun s => if s = "AAPL"
      then some { symbol := "AAPL", tickerId := 1001, lastPrice := 7,
                  lastSize := 3, tradeTimestamp := 15, hasTrade := true,
                  pastLimit := true }
      else none)
    { tickerId := 1001, type := TickUpdateType.BidAsk, timestamp := 20,
      bidPrice := 5, askPrice := 6, bidSize := 1, askSize := 2 }).1 rfl
  exact h.1

end tws_bridge
